import Mathlib

/-!
Verification development for `screen/merge.py` (q2mm structure-merging tool).

The Python source manipulates Schrödinger `Structure` objects: ordered atoms
(1-based indices), bonds (pairs of atom indices with an order and a property
dictionary) and string-keyed property dictionaries at structure and bond level.
We embed these as Lean structures, with Python dictionaries modelled as
association lists (first occurrence wins on lookup) and Python exceptions
modelled with `Except`.

External Schrödinger API calls (`Structure.merge`, `deleteAtoms`, `getBond`,
`addBond`, `rmsd.superimpose`, pattern evaluation) are not part of the
repository source; the definitions embedding them carry doc comments saying
they are modelled from the spec.  Pattern evaluation is kept abstract as a
`Matcher` parameter.
-/

namespace MergeSpec

/-- A Schrödinger property value: Python strings, ints and bools as stored in
`*.mae` property dictionaries. -/
inductive Val where
  | s (v : String)
  | i (v : Int)
  | b (v : Bool)
deriving DecidableEq, Repr

deriving instance DecidableEq for Except

/-- Python truthiness of a property value (`if bond.property[k]:`, dict `get`
defaults, etc.). -/
def Val.truthy : Val → Bool
  | .s v => !(v == "")
  | .i v => !(v == 0)
  | .b v => v

/-- A property dictionary: association list, first occurrence of a key wins. -/
abbrev Props := List (String × Val)

/-- Set a key in a property dictionary: replace the first occurrence, or
append if absent (Python `dict.update` / item assignment). -/
def setProp : Props → String → Val → Props
  | [], k, v => [(k, v)]
  | (k0, v0) :: rest, k, v =>
      if k0 = k then (k, v) :: rest else (k0, v0) :: setProp rest k v

/-- An atom: 3-D coordinates and a type label.  Its index is its (1-based)
position in the owning structure's atom list.  (Coordinates are modelled
with exact integers; the source's floating-point geometry has no exact
counterpart and none of the verified properties depends on fractional
coordinate values.) -/
structure Atom where
  x : Int
  y : Int
  z : Int
  typeName : String
deriving DecidableEq, Repr

/-- A bond: two (1-based) atom indices, a bond order and bond-level
properties. -/
structure Bond where
  a1 : Int
  a2 : Int
  order : Int
  props : Props
deriving DecidableEq, Repr

/-- A structure: ordered atoms, bonds, structure-level properties. -/
structure Structure where
  atoms : List Atom
  bonds : List Bond
  props : Props
deriving DecidableEq, Repr

/-- Errors raised by the Python code, as far as the embedded fragments can
raise them. -/
inductive Err where
  /-- `UnboundLocalError` path of `get_overlapping_atoms_in_both`, reached
  after printing both structures' titles (so the failure identifies them). -/
  | noPatternMatch (t1 t2 : Val)
  /-- An uncaught `KeyError` on a dictionary access; carries the key only. -/
  | keyError (k : String)
  /-- `KeyError` on `i_cs_rca4_1` caught in `add_rca4`, printed together with
  struct_2's title, then re-raised: the failure identifies the title. -/
  | missingRca4 (title : Val)
  /-- `AttributeError`: `getBond` returned `None` and the code then used the
  result as a bond. -/
  | noBond
  /-- `IndexError`: list/atom index out of range. -/
  | indexError
  /-- `TypeError`: e.g. string + int. -/
  | typeError
deriving DecidableEq, Repr

/-- 1-based atom access `structure.atom[i]` (raises = `none` when out of
range; Schrödinger's accessor rejects indices below 1). -/
def atomAt (st : Structure) (i : Int) : Option Atom :=
  if 1 ≤ i then st.atoms.get? (i - 1).toNat else none

/-- Does a bond connect the (unordered) pair `i`, `j`? -/
def bondMatches (b : Bond) (i j : Int) : Bool :=
  (b.a1 == i && b.a2 == j) || (b.a1 == j && b.a2 == i)

/-- Modelled from the spec: Schrödinger `Structure.getBond(a, b)` — the bond
between two atoms, in either orientation, or `None`. -/
def getBond (bonds : List Bond) (i j : Int) : Option Bond :=
  bonds.find? (fun b => bondMatches b i j)

/-- Update (the first) bond between `i` and `j` in place. -/
def updBond : List Bond → Int → Int → (Bond → Bond) → List Bond
  | [], _, _, _ => []
  | b :: rest, i, j, f =>
      if bondMatches b i j then f b :: rest else b :: updBond rest i j f

/-- Does `p` occur as a contiguous run at the head of `l`? -/
def headRun : List Char → List Char → Bool
  | [], _ => true
  | _ :: _, [] => false
  | a :: as, b :: bs => a == b && headRun as bs

/-- Does `p` occur as a contiguous run anywhere in `l`?  (Python `in` on
strings.) -/
def hasRun (p : List Char) : List Char → Bool
  | [] => p.isEmpty
  | c :: cs => headRun p (c :: cs) || hasRun p cs

/-- Python `needle in key` for strings. -/
def strHas (key needle : String) : Bool :=
  hasRun needle.toList key.toList

/-- `search_dic_keys(dic, lookup)` (merge.py line 158): yield the values of
all keys containing the given substring, in dictionary order. -/
def searchDicKeys (dic : Props) (needle : String) : List Val :=
  dic.filterMap (fun kv => if strHas kv.1 needle then some kv.2 else none)

/-- `structure.property.get(k, False)` followed by use as a boolean flag. -/
def boolFlag (st : Structure) (k : String) : Bool :=
  match st.props.lookup k with
  | some v => v.truthy
  | none => false

/-- Abstract pattern evaluation
(`get_atom_numbers_from_structure_with_pattern`, which defers entirely to the
external Schrödinger `analyze.evaluate_smarts` / `evaluate_substructure`):
given a structure, a pattern value and the two policy flags, return the list
of matches (each a list of 1-based atom indices). -/
abbrev Matcher := Structure → Val → Bool → Bool → List (List Int)

/-- The pattern loop of `get_overlapping_atoms_in_both` (merge.py lines
124–156).  A Python subtlety embedded faithfully: `match_struct_2` is only
ever assigned in the non-empty-`match_struct_1` branch, and the trailing
`try` block raises `UnboundLocalError` when the loop ends without a
non-empty struct_1 match (including when the pattern list is empty); on that
path both structures' titles are read (`property['s_m_title']`, a `KeyError`
when absent) and printed before re-raising. -/
def goPatterns (matcher : Matcher) (s1 s2 : Structure) :
    List Val → Except Err (List (List Int) × List (List Int))
  | [] =>
      match s1.props.lookup "s_m_title", s2.props.lookup "s_m_title" with
      | some t1, some t2 => .error (Err.noPatternMatch t1 t2)
      | none, _ => .error (Err.keyError "s_m_title")
      | some _, none => .error (Err.keyError "s_m_title")
  | p :: ps =>
      let m1 := matcher s1 p (boolFlag s1 "b_cs_first_match_only")
        (boolFlag s1 "b_cs_use_substructure")
      if m1.isEmpty then goPatterns matcher s1 s2 ps
      else
        .ok (m1, matcher s2 p (boolFlag s2 "b_cs_first_match_only")
          (boolFlag s2 "b_cs_use_substructure"))

/-- `get_overlapping_atoms_in_both(struct_1, struct_2)` (merge.py lines
107–156): try each value of a struct_2 property whose key contains
"pattern", in dictionary order. -/
def getOverlap (matcher : Matcher) (s1 s2 : Structure) :
    Except Err (List (List Int) × List (List Int)) :=
  goPatterns matcher s1 s2 (searchDicKeys s2.props "pattern")

/-- Modelled from the spec: Schrödinger `struct_1.merge(struct_2,
copy_props=True)` (§4.5 step 1) — disjoint union, struct_2's atoms appended
after struct_1's, struct_2's bond endpoints offset by struct_1's atom count,
structure properties combined with struct_1 precedence on key collision. -/
def schMerge (s1 s2 : Structure) : Structure :=
  let n : Int := s1.atoms.length
  { atoms := s1.atoms ++ s2.atoms
    bonds := s1.bonds ++ s2.bonds.map (fun b => { b with a1 := b.a1 + n, a2 := b.a2 + n })
    props := s1.props ++ s2.props.filter (fun kv => (s1.props.lookup kv.1).isNone) }

/-- Atom-deletion helper: walk the atom list with its running 1-based
position, dropping positions listed in `dels`. -/
def delAux : List Atom → Int → List Int → List Atom
  | [], _, _ => []
  | a :: as, i, dels =>
      if dels.contains i then delAux as (i + 1) dels else a :: delAux as (i + 1) dels

/-- Modelled from the spec: Schrödinger `Structure.deleteAtoms` (§4.5 step 4)
— delete the listed atoms (set semantics), drop bonds incident to them, and
compact the remaining indices: a surviving atom at old index `i` moves to
`i` minus the number of distinct deleted indices below `i`. -/
def deleteAtoms (st : Structure) (dels : List Int) : Structure :=
  let remap : Int → Int := fun i => i - ((dels.dedup.countP (fun d => decide (d < i)) : Nat) : Int)
  { atoms := delAux st.atoms 1 dels
    bonds := (st.bonds.filter
        (fun b => !(dels.contains b.a1) && !(dels.contains b.a2))).map
        (fun b => { b with a1 := remap b.a1, a2 := remap b.a2 })
    props := st.props }

/-- The bond-property copy rule (merge.py lines 252–254): for each key of the
source bond, write it into the target unless the target already holds a
truthy value for it. -/
def copyProps (src tgt : Props) : Props :=
  src.foldl
    (fun t kv =>
      match t.lookup kv.1 with
      | none => setProp t kv.1 kv.2
      | some v => if v.truthy then t else setProp t kv.1 kv.2)
    tgt

/-- Body of the inner bond loop of `merge_structures_from_matching_atoms`
(merge.py lines 223–254), for one bond of the common struct_2 atom `c2`,
presented as `(c2, other)` with the given order and properties (Schrödinger
iterates an atom's bonds with `atom1` being that atom).  `m1` is `match_1`
(= `common_atoms_1` by index) and `c2idx` the union indices of
`common_atoms_2`.  Failure modes embedded faithfully: `common_atoms_1[j]`
raises `IndexError` when `match_1` is too short, and a `None` result of
`getBond` raises `AttributeError` at the first property-copy iteration (so
only when the source bond has at least one property). -/
def processBond (m1 c2idx : List Int) (c2 : Int) (bonds : List Bond)
    (other : Int) (order : Int) (bprops : Props) : Except Err (List Bond) :=
  match m1.get? (c2idx.indexOf c2) with
  | none => Except.error Err.indexError
  | some atom1 =>
      if other ∈ c2idx then
        match m1.get? (c2idx.indexOf other) with
        | none => Except.error Err.indexError
        | some atom2 =>
            match getBond bonds atom1 atom2 with
            | some _ =>
                Except.ok (updBond bonds atom1 atom2
                  (fun b => { b with props := copyProps bprops b.props }))
            | none =>
                if bprops.isEmpty then Except.ok bonds else Except.error Err.noBond
      else
        let bonds1 := bonds ++ [⟨atom1, other, order, []⟩]
        match getBond bonds1 atom1 other with
        | some _ =>
            Except.ok (updBond bonds1 atom1 other
              (fun b => { b with props := copyProps bprops b.props }))
        | none =>
            if bprops.isEmpty then Except.ok bonds1 else Except.error Err.noBond

/-- One iteration of the outer loop of `merge_structures_from_matching_atoms`
(merge.py lines 208–254): process every bond of the common struct_2 atom
`c2`.  Bonds added during the loop are never incident to a common struct_2
atom, so taking the incident-bond list up front agrees with Python's live
iteration.  The loop only ever touches the bond list, so it is threaded
through as the state. -/
def processPair (m1 c2idx : List Int) (bonds : List Bond) (c2 : Int) :
    Except Err (List Bond) :=
  let incident := bonds.filterMap (fun b =>
    if b.a1 == c2 then some (b.a2, b.order, b.props)
    else if b.a2 == c2 then some (b.a1, b.order, b.props)
    else none)
  incident.foldlM (fun bs t => processBond m1 c2idx c2 bs t.1 t.2.1 t.2.2) bonds

/-- Phase 1 of `add_rca4` (merge.py lines 290–303): scan struct_2's bonds and
record `[rca4_first, atom1.index, atom2.index, rca4_second]` for every bond
whose `i_cs_rca4_1` is truthy.  The `try` block checks only `i_cs_rca4_1`
(twice — the source checks the same key on both lines); a missing
`i_cs_rca4_1` is caught, printed with struct_2's title and re-raised, while a
missing `i_cs_rca4_2` surfaces as a bare uncaught `KeyError` at line 302. -/
def scanRca4 (s2 : Structure) : Except Err (List (List Val)) :=
  s2.bonds.foldlM
    (fun acc b =>
      match b.props.lookup "i_cs_rca4_1" with
      | none =>
          (match s2.props.lookup "s_m_title" with
           | some t => Except.error (Err.missingRca4 t)
           | none => Except.error (Err.keyError "s_m_title"))
      | some v1 =>
          if v1.truthy then
            match b.props.lookup "i_cs_rca4_2" with
            | some v2 => Except.ok (acc ++ [[v1, Val.i b.a1, Val.i b.a2, v2]])
            | none => Except.error (Err.keyError "i_cs_rca4_2")
          else Except.ok acc)
    []

/-- The index translation at the heart of `add_rca4` (merge.py lines
313–332), for one integer value `x`: a common struct_2 index is replaced by
its struct_1 counterpart `match_1[match_2.index(x)]`; any other index is
offset by struct_1's atom count and then decremented by the number of
entries of `[m + num_atoms for m in match_2]` below it. -/
def translateCore (m1 m2 : List Int) (n : Int) (x : Int) : Except Err Int :=
  if x ∈ m2 then
    match m1.get? (m2.indexOf x) with
    | some y => Except.ok y
    | none => Except.error Err.indexError
  else
    Except.ok (x + n - (((m2.map (· + n)).countP (fun i => decide (i < x + n)) : Nat) : Int))

/-- Translation of one recorded tuple entry, which is a Python value: ints
translate via `translateCore`; bools are ints in Python (`True` = 1); a
string fails the `x in match_2` test and then raises `TypeError` at
`x + num_atoms`. -/
def translateVal (m1 m2 : List Int) (n : Int) : Val → Except Err Int
  | .i x => translateCore m1 m2 n x
  | .b bv => translateCore m1 m2 n (if bv then 1 else 0)
  | .s _ => Except.error Err.typeError

/-- Phase 2 of `add_rca4` (merge.py lines 308–333), embedded as the literal
double loop: an outer fold over the recorded tuples and an inner fold over
each tuple's entries, both accumulating by appending. -/
def phase2Rca4 (m1 m2 : List Int) (n : Int) (tuples : List (List Val)) :
    Except Err (List (List Int)) :=
  tuples.foldlM
    (fun acc t => do
      let nt ← t.foldlM
        (fun acc2 v => do
          let y ← translateVal m1 m2 n v
          Except.ok (acc2 ++ [y]))
        []
      Except.ok (acc ++ [nt]))
    []

/-- Elementwise (order-independent) traversal in the `Except` monad. -/
def seqE {α β : Type} (g : α → Except Err β) : List α → Except Err (List β)
  | [] => Except.ok []
  | x :: xs => do
      let y ← g x
      let ys ← seqE g xs
      Except.ok (y :: ys)

/-- Elementwise translation of one tuple (pure map in the `Except` monad). -/
def translateTuple (m1 m2 : List Int) (n : Int) : List Val → Except Err (List Int) :=
  seqE (translateVal m1 m2 n)

/-- Elementwise translation of all tuples. -/
def translateTuples (m1 m2 : List Int) (n : Int) :
    List (List Val) → Except Err (List (List Int)) :=
  seqE (translateTuple m1 m2 n)

/-- The RCA4 value translation as the spec's §4.6 words state it: for a
non-common index, subtract the number of elements of the *set*
`\x7bm + atom_count(struct_1) for m in match_2\x7d` strictly below
`x + atom_count(struct_1)`. -/
def rca4SpecTranslate (m1 m2 : List Int) (n : Int) (x : Int) : Except Err Int :=
  if x ∈ m2 then
    match m1.get? (m2.indexOf x) with
    | some y => Except.ok y
    | none => Except.error Err.indexError
  else
    Except.ok (x + n - (((m2.map (· + n)).dedup.countP (fun i => decide (i < x + n)) : Nat) : Int))

/-- Validity of a 1-based atom index against an atom list (`merge.atom[i]`
succeeds exactly when this holds). -/
def atomIdxOk (atoms : List Atom) (i : Int) : Bool :=
  decide (1 ≤ i) && (atoms.get? (i - 1).toNat).isSome

/-- Phase 3 of `add_rca4` (merge.py lines 338–358): for each translated tuple
`[r1, a1, a2, r2]`, look up the merged bond between `a1` and `a2`
(`None` → `AttributeError` in the following print), read its current
`i_cs_rca4_1` and `i_cs_rca4_2` (the print at lines 340–346 raises
`KeyError` when absent), overwrite them with `r1`/`r2`, then index
`merge.atom` with the new values (the print at lines 349–358 raises
`IndexError` when out of range). -/
def updateRca4 (atoms : List Atom) (bonds0 : List Bond) (tuples : List (List Int)) :
    Except Err (List Bond) :=
  tuples.foldlM
    (fun bs t =>
      match t with
      | [r1, a1, a2, r2] =>
          (match getBond bs a1 a2 with
           | none => Except.error Err.noBond
           | some b =>
              match b.props.lookup "i_cs_rca4_1", b.props.lookup "i_cs_rca4_2" with
              | some _, some _ =>
                  let bs1 := updBond bs a1 a2
                    (fun bb =>
                      let p1 := setProp bb.props "i_cs_rca4_1" (Val.i r1)
                      { bb with props := setProp p1 "i_cs_rca4_2" (Val.i r2) })
                  if atomIdxOk atoms r1 && atomIdxOk atoms r2 then Except.ok bs1
                  else Except.error Err.indexError
              | none, _ => Except.error (Err.keyError "i_cs_rca4_1")
              | some _, none => Except.error (Err.keyError "i_cs_rca4_2"))
      | _ => Except.error Err.indexError)
    bonds0

/-- `add_rca4(merge, struct_1, match_1, struct_2, match_2)` (merge.py lines
266–359).  The update phase only reads and writes the merged structure's
bonds (the atom list enters only through the index-validity reads of the
logging), so it is threaded as a bond list. -/
def addRca4 (mg s1 : Structure) (m1 : List Int) (s2 : Structure) (m2 : List Int) :
    Except Err Structure :=
  match scanRca4 s2 with
  | Except.error e => Except.error e
  | Except.ok tuples =>
      match phase2Rca4 m1 m2 (s1.atoms.length : Int) tuples with
      | Except.error e => Except.error e
      | Except.ok newTuples =>
          match updateRca4 mg.atoms mg.bonds newTuples with
          | Except.error e => Except.error e
          | Except.ok bs => Except.ok { mg with bonds := bs }

/-- Append `"_" + struct_2`'s value to a string property of the merged
structure (merge.py lines 260–262): both reads raise `KeyError` when the key
is absent, and `+=` raises `TypeError` on non-strings. -/
def appendTitleProp (mgProps s2Props : Props) (k : String) : Except Err Props :=
  match mgProps.lookup k, s2Props.lookup k with
  | some (Val.s a), some (Val.s b) => Except.ok (setProp mgProps k (Val.s (a ++ "_" ++ b)))
  | none, _ => Except.error (Err.keyError k)
  | some _, none => Except.error (Err.keyError k)
  | some _, some _ => Except.error Err.typeError

/-- `merge_structures_from_matching_atoms(struct_1, match_1, struct_2,
match_2)` (merge.py lines 172–264): union the structures, reconcile the
bonds attached to common struct_2 atoms, delete the duplicate common atoms,
remap RCA4 annotations, and extend title/entry name.  The atom-object list
constructions at lines 196–197 raise `IndexError` for out-of-range match
indices; the outer loop iterates `izip(match_1, common_atoms_2)`, which
truncates to the shorter list. -/
def mergeStructs (s1 : Structure) (m1 : List Int) (s2 : Structure) (m2 : List Int) :
    Except Err Structure :=
  let n : Int := s1.atoms.length
  let mg0 := schMerge s1 s2
  let c2idx := m2.map (· + n)
  if c2idx.all (fun x => (atomAt mg0 x).isSome) && m1.all (fun x => (atomAt mg0 x).isSome) then
    match (m1.zip c2idx).foldlM (fun bs pr => processPair m1 c2idx bs pr.2) mg0.bonds with
    | Except.error e => Except.error e
    | Except.ok bonds1 =>
        let mg2 := deleteAtoms { mg0 with bonds := bonds1 } c2idx
        match addRca4 mg2 s1 m1 s2 m2 with
        | Except.error e => Except.error e
        | Except.ok mg3 =>
            match appendTitleProp mg3.props s2.props "s_m_title" with
            | Except.error e => Except.error e
            | Except.ok props1 =>
                match appendTitleProp props1 s2.props "s_m_entry_name" with
                | Except.error e => Except.error e
                | Except.ok props2 => Except.ok { mg3 with props := props2 }
  else Except.error Err.indexError

/-- Coordinates of the atom at a (1-based) index, with the origin for an
out-of-range index (never hit on the paths proved about). -/
def coordOf (st : Structure) (i : Int) : Int × Int × Int :=
  match atomAt st i with
  | some a => (a.x, a.y, a.z)
  | none => (0, 0, 0)

/-- Modelled from the spec: `schrodinger.structutils.rmsd.superimpose`
(§4.4) — the rigid transform minimizing the RMS deviation of the matched
coordinates, applied to struct_2's coordinates in place.  For a single-atom
match the optimal transform is fully determined up to a rotation about the
matched point: the translation taking struct_2's matched atom onto
struct_1's; that is modelled exactly, with the undetermined rotation taken
as the identity.  For larger matches the real transform is a floating-point
least-squares fit with no exact-arithmetic counterpart, and the same
translation (by the difference of the first matched atoms' coordinates)
stands in for it — every theorem below that involves multi-atom matches
relies only on superimposition changing nothing but struct_2's coordinates.
Only struct_2 is modified; its bonds, properties and atom labels are
untouched. -/
def superimpose (s1 : Structure) (m1 : List Int) (s2 : Structure) (m2 : List Int) :
    Structure :=
  let p1 := match m1.head? with
    | some i => coordOf s1 i
    | none => (0, 0, 0)
  let p2 := match m2.head? with
    | some i => coordOf s2 i
    | none => (0, 0, 0)
  { s2 with atoms := s2.atoms.map (fun a =>
      { a with x := a.x + (p1.1 - p2.1), y := a.y + (p1.2.1 - p2.2.1),
               z := a.z + (p1.2.2 - p2.2.2) }) }

/-- `load_enantiomers(structure)` (merge.py lines 398–425): yield the input;
when `b_cs_both_enantiomers` is truthy, also yield a deep copy with every
atom's x coordinate negated (the print at line 420 reads `s_m_title`,
raising `KeyError` when absent). -/
def mirrorStructure (s : Structure) : Structure :=
  { s with atoms := s.atoms.map (fun a => { a with x := -a.x }) }

/-- The full enantiomer-expansion output as a list (the Python generator is
consumed strictly by `merge_many_filenames`). -/
def loadEnantiomers (s : Structure) : Except Err (List Structure) :=
  if boolFlag s "b_cs_both_enantiomers" then
    match s.props.lookup "s_m_title" with
    | some _ => Except.ok [s, mirrorStructure s]
    | none => Except.error (Err.keyError "s_m_title")
  else Except.ok [s]

/-- Validity of the per-iteration prints of the `merge` driver (merge.py
lines 386–393), which index both structures' atoms by the match indices. -/
def matchValid (st : Structure) (m : List Int) : Bool :=
  m.all (fun x => (atomAt st x).isSome)

/-- The body of the double loop of `merge(struct_1, struct_2)` (merge.py
lines 382–396) for one `(match_1, match_2)` pair: superimpose (mutating
struct_2's coordinates — the mutated struct_2 is threaded through as state)
and merge; accumulate the yielded structure. -/
def driverStep (s1 : Structure) (m1 : List Int) (acc : Structure × List Structure)
    (m2 : List Int) : Except Err (Structure × List Structure) :=
  if matchValid s1 m1 && matchValid acc.1 m2 then
    let s2p := superimpose s1 m1 acc.1 m2
    match mergeStructs s1 m1 s2p m2 with
    | Except.error e => Except.error e
    | Except.ok out => Except.ok (s2p, acc.2 ++ [out])
  else Except.error Err.indexError

/-- `merge(struct_1, struct_2)` (merge.py lines 361–396): find the two match
sets, then yield one merged structure per `(match_1, match_2)` pair of their
cross-product.  Returns the final (superimposed) state of struct_2 together
with the list of yielded structures. -/
def mergeDriver (matcher : Matcher) (s1 s2 : Structure) :
    Except Err (Structure × List Structure) :=
  match getOverlap matcher s1 s2 with
  | Except.error e => Except.error e
  | Except.ok ms =>
      ms.1.foldlM (fun acc m1 => ms.2.foldlM (driverStep s1 m1) acc) (s2, [])

/-- `match(structure, pattern)` under the structure's own policy flags, as
the pattern loop invokes it. -/
def matchOn (matcher : Matcher) (st : Structure) (p : Val) : List (List Int) :=
  matcher st p (boolFlag st "b_cs_first_match_only") (boolFlag st "b_cs_use_substructure")

/-- Counting helper for atom deletion: how many of the 1-based positions
`i, i+1, …, i+len-1` occur in `dels`.  (Distinct positions, so a deleted
index is counted once even when listed twice.) -/
def countRangeHits (dels : List Int) : Int → Nat → Nat
  | _, 0 => 0
  | i, len + 1 => (if dels.contains i then 1 else 0) + countRangeHits dels (i + 1) len

/-- Concrete two-atom fragment used as merge input in witnesses. -/
def sampA : Structure :=
  { atoms := [⟨0, 0, 0, "C1"⟩, ⟨1, 0, 0, "C2"⟩]
    bonds := []
    props := [("s_m_title", Val.s "A"), ("s_m_entry_name", Val.s "A")] }

/-- Concrete three-atom fragment (with a declared pattern) used as the second
merge input in witnesses. -/
def sampB : Structure :=
  { atoms := [⟨0, 0, 1, "N1"⟩, ⟨0, 1, 0, "N2"⟩, ⟨1, 1, 0, "N3"⟩]
    bonds := []
    props := [("s_m_title", Val.s "B"), ("s_m_entry_name", Val.s "B"),
              ("s_cs_pattern", Val.s "[N]")] }

/-- Concrete matcher oracle: three single-atom matches on the three-atom
fragment, two on anything else. -/
def sampMatcher : Matcher := fun st _ _ _ =>
  if st.atoms.length = 3 then [[1], [2], [3]] else [[1], [2]]

/-- One-atom fragment at the origin (first structure of the mutation
counterexample). -/
def oneA : Structure :=
  { atoms := [⟨0, 0, 0, "C"⟩]
    bonds := []
    props := [("s_m_title", Val.s "OA"), ("s_m_entry_name", Val.s "OA")] }

/-- One-atom fragment away from the origin (second structure of the mutation
counterexample; superimposition must move its atom). -/
def oneB : Structure :=
  { atoms := [⟨1, 0, 0, "C"⟩]
    bonds := []
    props := [("s_m_title", Val.s "OB"), ("s_m_entry_name", Val.s "OB"),
              ("s_cs_pattern", Val.s "[C]")] }

/-- Matcher oracle returning the single-atom match on both structures. -/
def oneMatcher : Matcher := fun _ _ _ _ => [[1]]

/-- A structure whose only bond carries a truthy `i_cs_rca4_1` but no
`i_cs_rca4_2` at all: the failing input for the RCA4 scan. -/
def badRca4B : Structure :=
  { atoms := [⟨0, 0, 1, "N1"⟩, ⟨0, 1, 0, "N2"⟩]
    bonds := [⟨1, 2, 1, [("i_cs_rca4_1", Val.i 9)]⟩]
    props := [("s_m_title", Val.s "BAD"), ("s_m_entry_name", Val.s "BAD"),
              ("s_cs_pattern", Val.s "[N]")] }

/-- Second structure for the missing-common-bond witness: two atoms joined by
a bond carrying a property. -/
def pairB : Structure :=
  { atoms := [⟨0, 0, 1, "N1"⟩, ⟨0, 1, 0, "N2"⟩]
    bonds := [⟨1, 2, 1, [("i_cs_rca4_1", Val.i 0)]⟩]
    props := [("s_m_title", Val.s "PB"), ("s_m_entry_name", Val.s "PB")] }

/-- First pattern value of the pattern-ordering witness. -/
def patOne : Val := Val.s "P1"

/-- Second pattern value of the pattern-ordering witness. -/
def patTwo : Val := Val.s "P2"

/-- Structure declaring two patterns, the first of which will not match. -/
def twoPatB : Structure :=
  { atoms := [⟨0, 0, 1, "N1"⟩]
    bonds := []
    props := [("s_m_title", Val.s "TP"), ("s_m_entry_name", Val.s "TP"),
              ("s_cs_pattern_1", patOne), ("s_cs_pattern_2", patTwo)] }

/-- Matcher for the pattern-ordering witness: the first pattern never
matches, the second matches one atom on the first structure and nothing on
the second. -/
def twoPatMatcher : Matcher := fun st p _ _ =>
  if p = patTwo then (if st.atoms.length = 2 then [[1]] else []) else []

/-- Structure with no pattern property at all (empty catalog). -/
def noPatB : Structure :=
  { atoms := [⟨0, 0, 1, "N1"⟩]
    bonds := []
    props := [("s_m_title", Val.s "NP"), ("s_m_entry_name", Val.s "NP")] }

/-- A structure whose only bond lacks `i_cs_rca4_1` entirely: the input on
which the RCA4 scan's `try` block fires and identifies the title. -/
def noRca1B : Structure :=
  { atoms := [⟨0, 0, 1, "N1"⟩, ⟨0, 1, 0, "N2"⟩]
    bonds := [⟨1, 2, 1, [("x", Val.i 1)]⟩]
    props := [("s_m_title", Val.s "BAD"), ("s_m_entry_name", Val.s "BAD"),
              ("s_cs_pattern", Val.s "[N]")] }

/-- Structure requesting both enantiomers. -/
def enantB : Structure :=
  { atoms := [⟨1, 2, 3, "C"⟩, ⟨-4, 5, 6, "O"⟩]
    bonds := [⟨1, 2, 1, []⟩]
    props := [("s_m_title", Val.s "E"), ("b_cs_both_enantiomers", Val.b true)] }

/-- The outcome of the bond-property copy rule at one key, written the way
the spec states it. -/
def copyOutcome (sv tv : Option Val) : Option Val :=
  match sv, tv with
  | some v, none => some v
  | some v, some w => if w.truthy then some w else some v
  | none, o => o

theorem lookup_cons (k k0 : String) (v0 : Val) (rest : Props) :
    List.lookup k ((k0, v0) :: rest) = if k = k0 then some v0 else rest.lookup k := by
  by_cases h : k = k0
  · subst h
    simp [List.lookup]
  · simp [List.lookup, h, beq_eq_false_iff_ne.mpr h]

theorem lookup_setProp_self (t : Props) (k : String) (v : Val) :
    (setProp t k v).lookup k = some v := by
  induction t with
  | nil => simp [setProp, lookup_cons]
  | cons kv rest ih =>
      obtain ⟨k0, v0⟩ := kv
      by_cases h : k0 = k
      · subst h
        simp [setProp, lookup_cons]
      · simp [setProp, h, lookup_cons, Ne.symm h, ih]

theorem lookup_setProp_other (t : Props) (k : String) (v : Val) (k2 : String)
    (h : k2 ≠ k) : (setProp t k v).lookup k2 = t.lookup k2 := by
  induction t with
  | nil => simp [setProp, lookup_cons, h]
  | cons kv rest ih =>
      obtain ⟨k0, v0⟩ := kv
      by_cases h0 : k0 = k
      · subst h0
        simp [setProp, lookup_cons, h]
      · simp [setProp, h0, lookup_cons, ih]

theorem lookup_eq_none_of_not_mem (t : Props) (k : String)
    (h : k ∉ t.map Prod.fst) : t.lookup k = none := by
  induction t with
  | nil => simp [List.lookup]
  | cons kv rest ih =>
      obtain ⟨k0, v0⟩ := kv
      simp only [List.map_cons, List.mem_cons] at h
      push_neg at h
      simp [lookup_cons, h.1, ih h.2]

/-- C2: during bond-annotation merging, a source key is copied to the target
exactly when it is absent from the target or the target's value for it is
falsy; a present, truthy target value is never overwritten, and keys not in
the source are untouched. -/
theorem bond_prop_copy_rule (src tgt : Props)
    (h : (src.map Prod.fst).Nodup) (k : String) :
    (copyProps src tgt).lookup k = copyOutcome (src.lookup k) (tgt.lookup k) := by
  induction src generalizing tgt with
  | nil => simp [copyProps, copyOutcome, List.lookup]
  | cons kv rest ih =>
      obtain ⟨k0, v0⟩ := kv
      simp only [List.map_cons, List.nodup_cons] at h
      have hstep : copyProps ((k0, v0) :: rest) tgt =
          copyProps rest (match tgt.lookup k0 with
            | none => setProp tgt k0 v0
            | some v => if v.truthy then tgt else setProp tgt k0 v0) := by
        simp [copyProps, List.foldl_cons]
      rw [hstep, ih _ h.2]
      by_cases hk : k = k0
      · subst hk
        have hrest : rest.lookup k = none := lookup_eq_none_of_not_mem rest k h.1
        rcases htgt : tgt.lookup k with _ | w
        · simp [copyOutcome, lookup_cons, hrest, htgt, lookup_setProp_self]
        · rcases hw : w.truthy with _ | _
          · simp [copyOutcome, lookup_cons, hrest, htgt, hw, lookup_setProp_self]
          · simp [copyOutcome, lookup_cons, hrest, htgt, hw]
      · have htgt2 : (match tgt.lookup k0 with
            | none => setProp tgt k0 v0
            | some v => if v.truthy then tgt else setProp tgt k0 v0).lookup k =
              tgt.lookup k := by
          rcases h0 : tgt.lookup k0 with _ | w
          · exact lookup_setProp_other _ _ _ _ hk
          · rcases hw : w.truthy with _ | _
            · simp only [hw, Bool.false_eq_true, if_false]
              exact lookup_setProp_other _ _ _ _ hk
            · simp only [hw, if_true]
        rw [htgt2]
        simp [lookup_cons, copyOutcome, hk]

/-- Witness for `bond_prop_copy_rule`: a truthy target value survives, a
falsy one and an absent key are overwritten/filled. -/
theorem bond_prop_copy_rule_witness :
    ([("a", Val.i 1), ("b", Val.i 2), ("c", Val.i 3)].map Prod.fst).Nodup ∧
    (copyProps [("a", Val.i 1), ("b", Val.i 2), ("c", Val.i 3)]
        [("a", Val.i 7), ("b", Val.i 0)]).lookup "a" =
      copyOutcome (some (Val.i 1)) (some (Val.i 7)) ∧
    (copyProps [("a", Val.i 1), ("b", Val.i 2), ("c", Val.i 3)]
        [("a", Val.i 7), ("b", Val.i 0)]).lookup "b" =
      copyOutcome (some (Val.i 2)) (some (Val.i 0)) ∧
    (copyProps [("a", Val.i 1), ("b", Val.i 2), ("c", Val.i 3)]
        [("a", Val.i 7), ("b", Val.i 0)]).lookup "c" =
      copyOutcome (some (Val.i 3)) none := by
  refine ⟨by decide, ?_, ?_, ?_⟩
  · exact (bond_prop_copy_rule _ _ (by decide) "a").trans (by decide)
  · exact (bond_prop_copy_rule _ _ (by decide) "b").trans (by decide)
  · exact (bond_prop_copy_rule _ _ (by decide) "c").trans (by decide)

theorem foldlM_cons_except {α β : Type} (f : β → α → Except Err β) (b : β)
    (x : α) (l : List α) :
    (x :: l).foldlM f b = (f b x).bind (fun b2 => l.foldlM f b2) := rfl

theorem foldlM_nil_except {α β : Type} (f : β → α → Except Err β) (b : β) :
    ([] : List α).foldlM f b = Except.ok b := rfl

theorem foldlM_append_eq {α β : Type} (g : α → Except Err β) (l : List α) :
    ∀ acc : List β,
      l.foldlM (fun a x => do
        let y ← g x
        Except.ok (a ++ [y])) acc =
      (seqE g l).bind (fun ys => Except.ok (acc ++ ys)) := by
  induction l with
  | nil =>
      intro acc
      show (Except.ok acc : Except Err (List β)) = Except.ok (acc ++ [])
      rw [List.append_nil]
  | cons x xs ih =>
      intro acc
      rw [foldlM_cons_except]
      rcases hg : g x with e | y
      · show (Except.error e).bind _ = (seqE g (x :: xs)).bind _
        rw [show seqE g (x :: xs) = (g x).bind fun y =>
          (seqE g xs).bind fun ys => Except.ok (y :: ys) from rfl, hg]
        rfl
      · show (Except.ok (acc ++ [y])).bind _ = (seqE g (x :: xs)).bind _
        rw [show seqE g (x :: xs) = (g x).bind fun y =>
          (seqE g xs).bind fun ys => Except.ok (y :: ys) from rfl, hg]
        show xs.foldlM _ (acc ++ [y]) = _
        rw [ih (acc ++ [y])]
        rcases hs : seqE g xs with e2 | ys
        · rfl
        · show Except.ok (acc ++ [y] ++ ys) = Except.ok (acc ++ y :: ys)
          rw [List.append_assoc]
          rfl

theorem seqE_congr {α β : Type} (g g2 : α → Except Err β) (l : List α)
    (h : ∀ x ∈ l, g x = g2 x) : seqE g l = seqE g2 l := by
  induction l with
  | nil => rfl
  | cons x xs ih =>
      show (g x).bind _ = (g2 x).bind _
      rw [h x (List.mem_cons_self x xs)]
      have ihx := ih (fun y hy => h y (List.mem_cons_of_mem x hy))
      rcases g2 x with e | y
      · rfl
      · show (seqE g xs).bind _ = (seqE g2 xs).bind _
        rw [ihx]

theorem phase2Rca4_eq_translateTuples (m1 m2 : List Int) (n : Int)
    (ts : List (List Val)) :
    phase2Rca4 m1 m2 n ts = translateTuples m1 m2 n ts := by
  have hinner : ∀ t : List Val,
      (t.foldlM (fun acc2 v => do
        let y ← translateVal m1 m2 n v
        Except.ok (acc2 ++ [y])) ([] : List Int)) = translateTuple m1 m2 n t := by
    intro t
    rw [foldlM_append_eq (translateVal m1 m2 n) t []]
    rcases h : translateTuple m1 m2 n t with e | ys
    · rw [show seqE (translateVal m1 m2 n) t = translateTuple m1 m2 n t from rfl, h]
      rfl
    · rw [show seqE (translateVal m1 m2 n) t = translateTuple m1 m2 n t from rfl, h]
      show Except.ok ([] ++ ys) = Except.ok ys
      rw [List.nil_append]
  have houter : phase2Rca4 m1 m2 n ts =
      ts.foldlM (fun acc t => do
        let nt ← translateTuple m1 m2 n t
        Except.ok (acc ++ [nt])) [] := by
    unfold phase2Rca4
    congr 1
    funext acc t
    rw [← hinner t]
  rw [houter, foldlM_append_eq (translateTuple m1 m2 n) ts []]
  rcases h : translateTuples m1 m2 n ts with e | ys
  · rw [show seqE (translateTuple m1 m2 n) ts = translateTuples m1 m2 n ts from rfl, h]
    rfl
  · rw [show seqE (translateTuple m1 m2 n) ts = translateTuples m1 m2 n ts from rfl, h]
    show Except.ok ([] ++ ys) = Except.ok ys
    rw [List.nil_append]

/-- C1: the RCA4 remapping of `add_rca4` translates each recorded value
elementwise — the whole append-accumulating double loop equals the pure
elementwise traversal `translateTuples`, so each translated value is a
function of that value, `match_1`, `match_2` and struct_1's atom count
alone — and on integer values the code's translation agrees with the
spec's set-based formula: a member of `match_2` becomes
`match_1[match_2.index(x)]`, and any other value `x` becomes
`x + atom_count(struct_1)` minus the number of elements of
`\x7bm + atom_count(struct_1) for m in match_2\x7d` strictly below it. -/
theorem rca4_translation (m1 m2 : List Int) (n : Int) (h : m2.Nodup) :
    (∀ ts : List (List Val), phase2Rca4 m1 m2 n ts = translateTuples m1 m2 n ts) ∧
    (∀ x : Int, translateVal m1 m2 n (Val.i x) = rca4SpecTranslate m1 m2 n x) := by
  constructor
  · exact phase2Rca4_eq_translateTuples m1 m2 n
  · intro x
    show translateCore m1 m2 n x = rca4SpecTranslate m1 m2 n x
    unfold translateCore rca4SpecTranslate
    have hinj : Function.Injective (fun m : Int => m + n) := fun a b hab => by
      simpa using hab
    have hnd : (m2.map (· + n)).Nodup := h.map hinj
    rw [List.dedup_eq_self.mpr hnd]

/-- Witness for `rca4_translation`: a concrete merge of `match_1 = [1, 2]`,
`match_2 = [2, 3]` with a three-atom first structure. -/
theorem rca4_translation_witness :
    ([2, 3] : List Int).Nodup ∧
    phase2Rca4 [1, 2] [2, 3] 3 [[Val.i 2, Val.i 1, Val.i 2, Val.i 4]] =
      translateTuples [1, 2] [2, 3] 3 [[Val.i 2, Val.i 1, Val.i 2, Val.i 4]] ∧
    translateVal [1, 2] [2, 3] 3 (Val.i 3) = rca4SpecTranslate [1, 2] [2, 3] 3 3 ∧
    translateVal [1, 2] [2, 3] 3 (Val.i 1) = rca4SpecTranslate [1, 2] [2, 3] 3 1 := by
  have h := rca4_translation [1, 2] [2, 3] 3 (by decide)
  exact ⟨by decide, h.1 _, h.2 3, h.2 1⟩

/-- C8: enantiomer expansion yields the input first; it yields a second
structure — the input with every atom's x coordinate negated and all other
data unchanged — exactly when the `b_cs_both_enantiomers` annotation is
present and truthy; the sequence has length 1 or 2.  (Stated under the
source-guaranteed presence of the title property, which the expansion's
logging reads on the second-yield path.) -/
theorem enantiomer_expansion (s : Structure) (t : Val)
    (ht : s.props.lookup "s_m_title" = some t) :
    ∃ l, loadEnantiomers s = Except.ok l ∧
      l.head? = some s ∧
      (l.length = 1 ∨ l.length = 2) ∧
      (l.length = 2 ↔
        ∃ v, s.props.lookup "b_cs_both_enantiomers" = some v ∧ v.truthy = true) ∧
      (∀ v, s.props.lookup "b_cs_both_enantiomers" = some v → v.truthy = true →
        l = [s, mirrorStructure s]) ∧
      (mirrorStructure s).bonds = s.bonds ∧
      (mirrorStructure s).props = s.props ∧
      (∀ i : Nat, (mirrorStructure s).atoms.get? i =
        (s.atoms.get? i).map (fun a => { a with x := -a.x })) := by
  have hmap : ∀ i : Nat, (mirrorStructure s).atoms.get? i =
      (s.atoms.get? i).map (fun a => { a with x := -a.x }) := by
    intro i
    simp [mirrorStructure, List.getElem?_map]
  rcases hf : s.props.lookup "b_cs_both_enantiomers" with _ | v
  · refine ⟨[s], ?_, rfl, Or.inl rfl, ?_, ?_, rfl, rfl, hmap⟩
    · simp [loadEnantiomers, boolFlag, hf]
    · constructor
      · intro h
        simp at h
      · rintro ⟨v, hv, _⟩
        cases hv
    · intro v hv
      cases hv
  · rcases hv : v.truthy with _ | _
    · refine ⟨[s], ?_, rfl, Or.inl rfl, ?_, ?_, rfl, rfl, hmap⟩
      · simp [loadEnantiomers, boolFlag, hf, hv]
      · constructor
        · intro h
          simp at h
        · rintro ⟨w, hw, hwt⟩
          cases hw
          rw [hv] at hwt
          cases hwt
      · intro w hw hwt
        cases hw
        rw [hv] at hwt
        cases hwt
    · refine ⟨[s, mirrorStructure s], ?_, rfl, Or.inr rfl, ?_, ?_, rfl, rfl, hmap⟩
      · simp [loadEnantiomers, boolFlag, hf, hv, ht]
      · exact ⟨fun _ => ⟨v, rfl, hv⟩, fun _ => rfl⟩
      · intro _ _ _
        rfl

/-- Witness for `enantiomer_expansion` at a concrete two-atom structure with
`b_cs_both_enantiomers` set. -/
theorem enantiomer_expansion_witness :
    enantB.props.lookup "s_m_title" = some (Val.s "E") ∧
    loadEnantiomers enantB = Except.ok [enantB, mirrorStructure enantB] ∧
    (mirrorStructure enantB).atoms = [⟨-1, 2, 3, "C"⟩, ⟨4, 5, 6, "O"⟩] := by
  obtain ⟨l, hok, hhead, _, _, hsnd, _, _, _⟩ :=
    enantiomer_expansion enantB (Val.s "E") (by decide)
  refine ⟨by decide, ?_, by decide⟩
  rw [hok, hsnd (Val.b true) (by decide) (by decide)]

theorem goPatterns_all_empty (matcher : Matcher) (s1 s2 : Structure) (t1 t2 : Val)
    (h1 : s1.props.lookup "s_m_title" = some t1)
    (h2 : s2.props.lookup "s_m_title" = some t2) :
    ∀ l : List Val, (∀ p ∈ l, matchOn matcher s1 p = []) →
      goPatterns matcher s1 s2 l = Except.error (Err.noPatternMatch t1 t2) := by
  intro l
  induction l with
  | nil =>
      intro _
      simp [goPatterns, h1, h2]
  | cons p ps ih =>
      intro hall
      have hp : matchOn matcher s1 p = [] := hall p (List.mem_cons_self p ps)
      have hrest := ih (fun q hq => hall q (List.mem_cons_of_mem p hq))
      simp only [goPatterns]
      rw [show matcher s1 p (boolFlag s1 "b_cs_first_match_only")
        (boolFlag s1 "b_cs_use_substructure") = matchOn matcher s1 p from rfl, hp]
      simpa using hrest

/-- C5: if no pattern of struct_2's catalog yields a non-empty match on
struct_1 (in particular when the catalog is empty), the lookup fails fatally
with an error identifying both structures' titles, and no match sets are
returned. -/
theorem no_pattern_match_fatal (matcher : Matcher) (s1 s2 : Structure) (t1 t2 : Val)
    (h1 : s1.props.lookup "s_m_title" = some t1)
    (h2 : s2.props.lookup "s_m_title" = some t2)
    (hall : ∀ p ∈ searchDicKeys s2.props "pattern", matchOn matcher s1 p = []) :
    getOverlap matcher s1 s2 = Except.error (Err.noPatternMatch t1 t2) :=
  goPatterns_all_empty matcher s1 s2 t1 t2 h1 h2 _ hall

/-- Witness for `no_pattern_match_fatal`: a structure with an empty pattern
catalog fails fatally naming both titles. -/
theorem no_pattern_match_fatal_witness :
    searchDicKeys noPatB.props "pattern" = [] ∧
    getOverlap sampMatcher sampA noPatB =
      Except.error (Err.noPatternMatch (Val.s "A") (Val.s "NP")) := by
  refine ⟨by decide, ?_⟩
  exact no_pattern_match_fatal sampMatcher sampA noPatB (Val.s "A") (Val.s "NP")
    (by decide) (by decide) (by intro p hp; simp [show searchDicKeys noPatB.props "pattern" = [] by decide] at hp)

theorem goPatterns_first_sel (matcher : Matcher) (s1 s2 : Structure) :
    ∀ (l : List Val) (i : Nat) (p : Val),
      l.get? i = some p →
      (∀ j, j < i → ∀ q, l.get? j = some q → matchOn matcher s1 q = []) →
      matchOn matcher s1 p ≠ [] →
      goPatterns matcher s1 s2 l = Except.ok (matchOn matcher s1 p, matchOn matcher s2 p) := by
  intro l
  induction l with
  | nil =>
      intro i p hp
      simp at hp
  | cons q qs ih =>
      intro i p hp hbef hnon
      cases i with
      | zero =>
          rw [List.get?_cons_zero] at hp
          injection hp with hpq
          rw [← hpq] at hnon ⊢
          rcases hm : matchOn matcher s1 q with _ | ⟨a, rest⟩
          · exact absurd hm hnon
          · simp only [goPatterns]
            rw [show matcher s1 q (boolFlag s1 "b_cs_first_match_only")
              (boolFlag s1 "b_cs_use_substructure") = matchOn matcher s1 q from rfl, hm]
            rfl
      | succ i2 =>
          rw [List.get?_cons_succ] at hp
          have hq : matchOn matcher s1 q = [] :=
            hbef 0 (Nat.succ_pos i2) q rfl
          simp only [goPatterns]
          rw [show matcher s1 q (boolFlag s1 "b_cs_first_match_only")
            (boolFlag s1 "b_cs_use_substructure") = matchOn matcher s1 q from rfl, hq]
          simpa using ih i2 p hp
            (fun j hj r hr => hbef (j + 1) (Nat.succ_lt_succ hj) r hr) hnon

/-- C4: patterns are tried in catalog order; the first pattern with a
non-empty struct_1 match is selected and its struct_1 and struct_2 match
sets are returned — even when the struct_2 match set is empty — and the
result only depends on the matcher's behavior at the selected pattern and
the ones before it (no later pattern is ever evaluated): any matcher
agreeing there produces the same result. -/
theorem first_pattern_selected (matcher : Matcher) (s1 s2 : Structure)
    (i : Nat) (p : Val)
    (hp : (searchDicKeys s2.props "pattern").get? i = some p)
    (hbef : ∀ j, j < i → ∀ q, (searchDicKeys s2.props "pattern").get? j = some q →
      matchOn matcher s1 q = [])
    (hnon : matchOn matcher s1 p ≠ []) :
    getOverlap matcher s1 s2 = Except.ok (matchOn matcher s1 p, matchOn matcher s2 p) ∧
    ∀ matcher2 : Matcher,
      (∀ j q, j ≤ i → (searchDicKeys s2.props "pattern").get? j = some q →
        matchOn matcher2 s1 q = matchOn matcher s1 q) →
      matchOn matcher2 s2 p = matchOn matcher s2 p →
      getOverlap matcher2 s1 s2 = getOverlap matcher s1 s2 := by
  have hsel := goPatterns_first_sel matcher s1 s2 _ i p hp hbef hnon
  refine ⟨hsel, ?_⟩
  intro matcher2 hagree1 hagree2
  have hbef2 : ∀ j, j < i → ∀ q, (searchDicKeys s2.props "pattern").get? j = some q →
      matchOn matcher2 s1 q = [] := by
    intro j hj q hq
    rw [hagree1 j q (Nat.le_of_lt hj) hq]
    exact hbef j hj q hq
  have hnon2 : matchOn matcher2 s1 p ≠ [] := by
    rw [hagree1 i p (Nat.le_refl i) hp]
    exact hnon
  have hsel2 := goPatterns_first_sel matcher2 s1 s2 _ i p hp hbef2 hnon2
  show goPatterns matcher2 s1 s2 _ = goPatterns matcher s1 s2 _
  rw [hsel, hsel2, hagree1 i p (Nat.le_refl i) hp, hagree2]

/-- Witness for `first_pattern_selected`: with two declared patterns of which
the first never matches, the second is selected and its empty struct_2 match
set is returned as-is. -/
theorem first_pattern_selected_witness :
    (searchDicKeys twoPatB.props "pattern").get? 1 = some patTwo ∧
    matchOn twoPatMatcher sampA patTwo ≠ [] ∧
    matchOn twoPatMatcher twoPatB patTwo = [] ∧
    getOverlap twoPatMatcher sampA twoPatB = Except.ok ([[1]], []) := by
  have h := first_pattern_selected twoPatMatcher sampA twoPatB 1 patTwo
    (by decide)
    (by
      intro j hj q hq
      interval_cases j
      · simp [show (searchDicKeys twoPatB.props "pattern").get? 0 = some patOne by decide] at hq
        cases hq
        decide)
    (by decide)
  exact ⟨by decide, by decide, by decide, h.1.trans (by decide)⟩

/-- C6 evidence: on a struct_2 whose bond carries a truthy `i_cs_rca4_1` but
no `i_cs_rca4_2` at all, the merge dies with a bare `KeyError` that does not
identify the structure's title (the `try` block of `add_rca4` checks
`i_cs_rca4_1` twice instead of also checking `i_cs_rca4_2`); only a missing
`i_cs_rca4_1` takes the title-identifying path. -/
theorem missing_rca4_2_bare_keyerror :
    mergeStructs sampA [1] badRca4B [1] = Except.error (Err.keyError "i_cs_rca4_2") ∧
    scanRca4 badRca4B = Except.error (Err.keyError "i_cs_rca4_2") ∧
    scanRca4 noRca1B = Except.error (Err.missingRca4 (Val.s "BAD")) := by
  refine ⟨?_, by decide, by decide⟩
  rfl

theorem ok_bind {α β : Type} (a : α) (f : α → Except Err β) :
    (Except.ok a >>= f) = f a := rfl

theorem error_bind {α β : Type} (e : Err) (f : α → Except Err β) :
    ((Except.error e : Except Err α) >>= f) = Except.error e := rfl

theorem foldlM_ok_inv {α β : Type} (P : β → Prop) (f : β → α → Except Err β)
    (hf : ∀ b a b2, P b → f b a = Except.ok b2 → P b2) :
    ∀ (l : List α) (b res : β), l.foldlM f b = Except.ok res → P b → P res := by
  intro l
  induction l with
  | nil =>
      intro b res h hb
      injection h with h2
      rw [← h2]
      exact hb
  | cons x xs ih =>
      intro b res h hb
      rw [foldlM_cons_except] at h
      rcases hx : f b x with e | b2 <;> rw [hx] at h
      · exact Except.noConfusion h
      · exact ih b2 res h (hf b x b2 hb hx)

theorem addRca4_atoms (mg s1 : Structure) (m1 : List Int) (s2 : Structure)
    (m2 : List Int) (res : Structure)
    (h : addRca4 mg s1 m1 s2 m2 = Except.ok res) : res.atoms = mg.atoms := by
  unfold addRca4 at h
  split at h
  · exact Except.noConfusion h
  · split at h
    · exact Except.noConfusion h
    · split at h
      · exact Except.noConfusion h
      · injection h with h4
        rw [← h4]

theorem delAux_length (dels : List Int) :
    ∀ (l : List Atom) (i : Int),
      (delAux l i dels).length + countRangeHits dels i l.length = l.length := by
  intro l
  induction l with
  | nil => intro i; rfl
  | cons a as ih =>
      intro i
      show (if dels.contains i then delAux as (i + 1) dels
        else a :: delAux as (i + 1) dels).length +
        ((if dels.contains i then 1 else 0) + countRangeHits dels (i + 1) as.length) =
        as.length + 1
      rcases hc : dels.contains i with _ | _
      · simp only [if_neg, Bool.false_eq_true, if_false, List.length_cons]
        have := ih (i + 1)
        omega
      · simp only [if_pos]
        have := ih (i + 1)
        omega

theorem countRangeHits_nil : ∀ (i : Int) (len : Nat), countRangeHits [] i len = 0 := by
  intro i len
  induction len generalizing i with
  | zero => rfl
  | succ k ih =>
      show (if ([] : List Int).contains i then 1 else 0) + countRangeHits [] (i + 1) k = 0
      rw [ih (i + 1)]
      rfl

theorem countRangeHits_cons (d : Int) (ds : List Int) (hd : d ∉ ds) :
    ∀ (len : Nat) (i : Int),
      countRangeHits (d :: ds) i len =
        countRangeHits ds i len + (if i ≤ d ∧ d < i + (len : Int) then 1 else 0) := by
  intro len
  induction len with
  | zero =>
      intro i
      have h0 : ¬(i ≤ d ∧ d < i + ((0 : Nat) : Int)) := by
        push_cast
        omega
      show 0 = 0 + if i ≤ d ∧ d < i + ((0 : Nat) : Int) then 1 else 0
      rw [if_neg h0]
  | succ k ih =>
      intro i
      show (if (d :: ds).contains i then 1 else 0) + countRangeHits (d :: ds) (i + 1) k =
        ((if ds.contains i then 1 else 0) + countRangeHits ds (i + 1) k) +
          (if i ≤ d ∧ d < i + ((k + 1 : Nat) : Int) then 1 else 0)
      rw [ih (i + 1)]
      have hcons : ((d :: ds).contains i) = ((i == d) || ds.contains i) := rfl
      rw [hcons]
      by_cases hid : i = d
      · have hbeq : (i == d) = true := beq_iff_eq.mpr hid
        have hds : ds.contains i = false := by
          rcases hds0 : ds.contains i with _ | _
          · rfl
          · exact absurd (List.elem_iff.mp hds0) (hid ▸ hd)
        have hno : ¬(i + 1 ≤ d ∧ d < i + 1 + (k : Int)) := by omega
        have hyes : i ≤ d ∧ d < i + ((k + 1 : Nat) : Int) := by
          push_cast
          omega
        rw [hbeq, hds, Bool.true_or, if_neg hno, if_pos hyes]
        simp only [eq_self_iff_true, Bool.false_eq_true, if_true, if_false]
        omega
      · have hbeq : (i == d) = false := beq_eq_false_iff_ne.mpr hid
        rw [hbeq, Bool.false_or]
        have hiff : (i + 1 ≤ d ∧ d < i + 1 + (k : Int)) ↔
            (i ≤ d ∧ d < i + ((k + 1 : Nat) : Int)) := by
          push_cast
          omega
        by_cases hcond : i ≤ d ∧ d < i + ((k + 1 : Nat) : Int)
        · rw [if_pos (hiff.mpr hcond), if_pos hcond]
          omega
        · rw [if_neg (fun hx => hcond (hiff.mp hx)), if_neg hcond]
          omega

theorem countRangeHits_card (L : Nat) :
    ∀ dels : List Int, dels.Nodup → (∀ d ∈ dels, 1 ≤ d ∧ d ≤ (L : Int)) →
      countRangeHits dels 1 L = dels.length := by
  intro dels
  induction dels with
  | nil =>
      intro _ _
      exact countRangeHits_nil 1 L
  | cons d ds ih =>
      intro hnd hb
      have hd : d ∉ ds := (List.nodup_cons.mp hnd).1
      rw [countRangeHits_cons d ds hd L 1,
        ih (List.nodup_cons.mp hnd).2 (fun x hx => hb x (List.mem_cons_of_mem d hx))]
      have h1 : (1 : Int) ≤ d ∧ d < 1 + (L : Int) := by
        have := hb d (List.mem_cons_self d ds)
        omega
      rw [if_pos h1]
      rfl

theorem get?_isSome_iff {α : Type} (l : List α) (n : Nat) :
    (l.get? n).isSome = true ↔ n < l.length := by
  rw [List.get?_eq_getElem?, Option.isSome_iff_ne_none]
  constructor
  · intro h
    by_contra hn
    exact h (List.getElem?_eq_none (Nat.le_of_not_lt hn))
  · intro h hn
    rw [List.getElem?_eq_none_iff] at hn
    omega

theorem atomAt_isSome_iff (st : Structure) (x : Int) :
    (atomAt st x).isSome = true ↔ 1 ≤ x ∧ x ≤ (st.atoms.length : Int) := by
  unfold atomAt
  by_cases h : 1 ≤ x
  · rw [if_pos h, get?_isSome_iff]
    omega
  · rw [if_neg h]
    simp only [Option.isSome_none, Bool.false_eq_true, false_iff]
    omega

theorem deleteAtoms_length (st : Structure) (dels : List Int) (hnd : dels.Nodup)
    (hb : ∀ d ∈ dels, 1 ≤ d ∧ d ≤ (st.atoms.length : Int)) :
    (deleteAtoms st dels).atoms.length = st.atoms.length - dels.length := by
  show (delAux st.atoms 1 dels).length = _
  have h1 := delAux_length dels st.atoms 1
  have h2 := countRangeHits_card st.atoms.length dels hnd hb
  omega

/-- C3: a merge selected by a pattern matching `k` atoms in each structure
produces `|A.atoms| + |B.atoms| - k` atoms: the union contributes every atom
of both inputs and exactly the `k` duplicate common struct_2 atoms are
deleted (the bond-reconciliation and RCA4 phases never change the atom
list). -/
theorem merged_atom_count (s1 s2 : Structure) (m1 m2 : List Int) (k : Nat)
    (hk1 : m1.length = k) (hk2 : m2.length = k) (hnd : m2.Nodup)
    (m : Structure) (h : mergeStructs s1 m1 s2 m2 = Except.ok m) :
    m.atoms.length = s1.atoms.length + s2.atoms.length - k := by
  unfold mergeStructs at h
  dsimp only at h
  split at h
  case isFalse => exact Except.noConfusion h
  case isTrue hguard =>
    split at h
    · exact Except.noConfusion h
    case h_2 bonds1 hfold =>
      split at h
      · exact Except.noConfusion h
      case h_2 mg3 hadd =>
        split at h
        · exact Except.noConfusion h
        case h_2 props1 hp1 =>
          split at h
          · exact Except.noConfusion h
          case h_2 props2 hp2 =>
            injection h with h4
            have hatoms : m.atoms = mg3.atoms := by rw [← h4]
            have h5 := addRca4_atoms _ s1 m1 s2 m2 mg3 hadd
            rw [hatoms, h5]
            have hlen : (schMerge s1 s2).atoms.length =
                s1.atoms.length + s2.atoms.length := by
              show (s1.atoms ++ s2.atoms).length = _
              rw [List.length_append]
            have hndm : (m2.map (· + (s1.atoms.length : Int))).Nodup := by
              refine hnd.map ?_
              intro a b hab
              have hab2 : a + (s1.atoms.length : Int) = b + (s1.atoms.length : Int) := hab
              omega
            have hbound : ∀ d ∈ m2.map (· + (s1.atoms.length : Int)),
                1 ≤ d ∧ d ≤ (((schMerge s1 s2).atoms.length : Nat) : Int) := by
              intro d hd
              rw [Bool.and_eq_true] at hguard
              have hall := hguard.1
              rw [List.all_eq_true] at hall
              have := hall d hd
              rw [atomAt_isSome_iff] at this
              exact this
            have hdel := deleteAtoms_length
              { schMerge s1 s2 with bonds := bonds1 }
              (m2.map (· + (s1.atoms.length : Int)))
              hndm
              (by
                intro d hd
                have := hbound d hd
                exact this)
            rw [show ({ schMerge s1 s2 with bonds := bonds1 } : Structure).atoms =
              (schMerge s1 s2).atoms from rfl] at hdel
            rw [hdel, hlen, List.length_map, hk2]

/-- Witness for `merged_atom_count`: merging a 2-atom and a 3-atom fragment
on a single common atom yields 4 atoms. -/
theorem merged_atom_count_witness :
    ([1] : List Int).length = 1 ∧ ([1] : List Int).Nodup ∧
    (mergeStructs sampA [1] sampB [1]).map (fun m => m.atoms.length) =
      Except.ok (sampA.atoms.length + sampB.atoms.length - 1) := by
  refine ⟨rfl, by decide, ?_⟩
  have hok : (mergeStructs sampA [1] sampB [1]).isOk = true := by decide
  rcases hm : mergeStructs sampA [1] sampB [1] with e | m
  · rw [hm] at hok
    exact Bool.noConfusion hok
  · rw [Except.map, merged_atom_count sampA sampB [1] [1] 1 rfl rfl (by decide) m hm]

theorem driverStep_ok_length (s1 : Structure) (m1 : List Int)
    (acc res : Structure × List Structure) (m2 : List Int)
    (h : driverStep s1 m1 acc m2 = Except.ok res) :
    res.2.length = acc.2.length + 1 := by
  unfold driverStep at h
  split at h
  · dsimp only at h
    split at h
    · exact Except.noConfusion h
    · injection h with h2
      rw [← h2]
      show (acc.2 ++ [_]).length = _
      rw [List.length_append]
      rfl
  · exact Except.noConfusion h

theorem foldlM_driver_inner (s1 : Structure) (m1 : List Int) (l : List (List Int)) :
    ∀ acc res, l.foldlM (driverStep s1 m1) acc = Except.ok res →
      res.2.length = acc.2.length + l.length := by
  induction l with
  | nil =>
      intro acc res h
      injection h with h2
      rw [← h2, List.length_nil, Nat.add_zero]
  | cons x xs ih =>
      intro acc res h
      rw [foldlM_cons_except] at h
      rcases hx : driverStep s1 m1 acc x with e | b <;> rw [hx] at h
      · exact Except.noConfusion h
      · have h1 := ih b res h
        have h2 := driverStep_ok_length s1 m1 acc b x hx
        rw [h1, h2, List.length_cons]
        omega

theorem foldlM_driver_outer (s1 : Structure) (m2s : List (List Int))
    (l : List (List Int)) :
    ∀ acc res,
      l.foldlM (fun acc m1 => m2s.foldlM (driverStep s1 m1) acc) acc = Except.ok res →
      res.2.length = acc.2.length + l.length * m2s.length := by
  induction l with
  | nil =>
      intro acc res h
      injection h with h2
      rw [← h2, List.length_nil]
      omega
  | cons x xs ih =>
      intro acc res h
      rw [foldlM_cons_except] at h
      rcases hx : m2s.foldlM (driverStep s1 x) acc with e | b <;> rw [hx] at h
      · exact Except.noConfusion h
      · have h1 := ih b res h
        have h2 := foldlM_driver_inner s1 x m2s acc b hx
        rw [h1, h2, List.length_cons]
        ring_nf

/-- C7: for every structure pair on which `find_common_atoms` returns match
sets `Matches_1` and `Matches_2`, the merge driver yields exactly one merged
structure per element of the cross-product `Matches_1 × Matches_2`
(`|Matches_1| * |Matches_2|` outputs in total). -/
theorem driver_cross_product (matcher : Matcher) (s1 s2 : Structure)
    (ms : List (List Int) × List (List Int)) (res : Structure × List Structure)
    (hov : getOverlap matcher s1 s2 = Except.ok ms)
    (h : mergeDriver matcher s1 s2 = Except.ok res) :
    res.2.length = ms.1.length * ms.2.length := by
  unfold mergeDriver at h
  rw [hov] at h
  have h2 := foldlM_driver_outer s1 ms.2 ms.1 (s2, []) res h
  rw [h2]
  show [].length + _ = _
  rw [List.length_nil, Nat.zero_add]

/-- Witness for `driver_cross_product`: 2 matches on structure A and 3 on
structure B yield exactly 6 merged structures. -/
theorem driver_cross_product_witness :
    getOverlap sampMatcher sampA sampB = Except.ok ([[1], [2]], [[1], [2], [3]]) ∧
    (mergeDriver sampMatcher sampA sampB).map (fun res => res.2.length) =
      Except.ok 6 := by
  have hov : getOverlap sampMatcher sampA sampB =
      Except.ok ([[1], [2]], [[1], [2], [3]]) := by decide
  have hok : (mergeDriver sampMatcher sampA sampB).isOk = true := by decide
  refine ⟨hov, ?_⟩
  rcases hres : mergeDriver sampMatcher sampA sampB with e | res
  · rw [hres] at hok
    exact Bool.noConfusion hok
  · have h6 := driver_cross_product sampMatcher sampA sampB
      ([[1], [2]], [[1], [2], [3]]) res hov hres
    rw [Except.map, h6]
    rfl

theorem superimpose_bonds (s1 : Structure) (m1 : List Int) (s2 : Structure)
    (m2 : List Int) : (superimpose s1 m1 s2 m2).bonds = s2.bonds := rfl

theorem superimpose_props (s1 : Structure) (m1 : List Int) (s2 : Structure)
    (m2 : List Int) : (superimpose s1 m1 s2 m2).props = s2.props := rfl

theorem superimpose_atoms_length (s1 : Structure) (m1 : List Int) (s2 : Structure)
    (m2 : List Int) : (superimpose s1 m1 s2 m2).atoms.length = s2.atoms.length := by
  show (s2.atoms.map _).length = _
  rw [List.length_map]

theorem superimpose_typeName (s1 : Structure) (m1 : List Int) (s2 : Structure)
    (m2 : List Int) (i : Nat) :
    ((superimpose s1 m1 s2 m2).atoms.get? i).map Atom.typeName =
      (s2.atoms.get? i).map Atom.typeName := by
  show ((s2.atoms.map _).get? i).map Atom.typeName = _
  rw [List.get?_eq_getElem?, List.get?_eq_getElem?, List.getElem?_map, Option.map_map]
  rfl

/-- C9 (amended): across the merge driver, neither input's atoms, bonds or
annotations are structurally altered and the merged outputs are new
structures — but struct_2's atom *coordinates* are mutated in place by the
superimposition performed before each merge.  Formally: a successful driver
run returns a final struct_2 state with the same bonds, the same properties,
the same atom count and the same per-atom type labels as the input struct_2
(only coordinates may differ); struct_1 is never written at all (the
embedding threads no struct_1 state because no source path mutates it). -/
theorem driver_mutation_frame (matcher : Matcher) (s1 s2 : Structure)
    (res : Structure × List Structure)
    (h : mergeDriver matcher s1 s2 = Except.ok res) :
    res.1.bonds = s2.bonds ∧ res.1.props = s2.props ∧
    res.1.atoms.length = s2.atoms.length ∧
    ∀ i : Nat, (res.1.atoms.get? i).map Atom.typeName =
      (s2.atoms.get? i).map Atom.typeName := by
  unfold mergeDriver at h
  rcases hov : getOverlap matcher s1 s2 with e | ms <;> rw [hov] at h
  · exact Except.noConfusion h
  · refine foldlM_ok_inv
      (fun acc : Structure × List Structure =>
        acc.1.bonds = s2.bonds ∧ acc.1.props = s2.props ∧
        acc.1.atoms.length = s2.atoms.length ∧
        ∀ i : Nat, (acc.1.atoms.get? i).map Atom.typeName =
          (s2.atoms.get? i).map Atom.typeName)
      _ ?_ ms.1 (s2, []) res h ⟨rfl, rfl, rfl, fun _ => rfl⟩
    intro b mm b2 hb hstep
    refine foldlM_ok_inv
      (fun acc : Structure × List Structure =>
        acc.1.bonds = s2.bonds ∧ acc.1.props = s2.props ∧
        acc.1.atoms.length = s2.atoms.length ∧
        ∀ i : Nat, (acc.1.atoms.get? i).map Atom.typeName =
          (s2.atoms.get? i).map Atom.typeName)
      _ ?_ ms.2 b b2 hstep hb
    intro c m2 c2 hc hstep2
    unfold driverStep at hstep2
    split at hstep2
    · dsimp only at hstep2
      split at hstep2
      · exact Except.noConfusion hstep2
      · injection hstep2 with h3
        rw [← h3]
        refine ⟨?_, ?_, ?_, ?_⟩
        · rw [show ((superimpose s1 mm c.1 m2, c.2 ++ [_]) :
            Structure × List Structure).1 = superimpose s1 mm c.1 m2 from rfl,
            superimpose_bonds]
          exact hc.1
        · rw [show ((superimpose s1 mm c.1 m2, c.2 ++ [_]) :
            Structure × List Structure).1 = superimpose s1 mm c.1 m2 from rfl,
            superimpose_props]
          exact hc.2.1
        · rw [show ((superimpose s1 mm c.1 m2, c.2 ++ [_]) :
            Structure × List Structure).1 = superimpose s1 mm c.1 m2 from rfl,
            superimpose_atoms_length]
          exact hc.2.2.1
        · intro i
          rw [show ((superimpose s1 mm c.1 m2, c.2 ++ [_]) :
            Structure × List Structure).1 = superimpose s1 mm c.1 m2 from rfl,
            superimpose_typeName]
          exact hc.2.2.2 i
    · exact Except.noConfusion hstep2

/-- Witness for `driver_mutation_frame` at a concrete one-atom pair. -/
theorem driver_mutation_frame_witness :
    (mergeDriver oneMatcher oneA oneB).map (fun res =>
      decide (res.1.bonds = oneB.bonds ∧ res.1.props = oneB.props ∧
        res.1.atoms.length = oneB.atoms.length)) = Except.ok true := by
  have hok : (mergeDriver oneMatcher oneA oneB).isOk = true := by decide
  rcases hres : mergeDriver oneMatcher oneA oneB with e | res
  · rw [hres] at hok
    exact Bool.noConfusion hok
  · have h := driver_mutation_frame oneMatcher oneA oneB res hres
    rw [Except.map, decide_eq_true ⟨h.1, h.2.1, h.2.2.1⟩]

/-- C9 counterexample: the claim "the two input structures' atoms, bonds,
and atom coordinates are left unchanged" is false — a successful driver run
on two one-atom structures whose atoms sit at different points returns a
struct_2 state whose atom list differs from the input's (its coordinates
were mutated in place by the superimposition the spec itself prescribes in
§4.4). -/
theorem driver_mutates_struct2_coords :
    (mergeDriver oneMatcher oneA oneB).map
      (fun p => decide (p.1.atoms = oneB.atoms)) = Except.ok false := by decide

/-- C10: implicit precondition of the bond-reconciliation loop — a struct_2
bond whose two endpoints are both common atoms requires the corresponding
struct_1 bond `(match_1[i], match_1[j])` to already exist in the merged
structure; when it does not, the merge raises (the bond lookup yields no
bond and the following annotation copy dies on it) instead of creating the
missing bond or skipping it.  Stated for an arbitrary first structure with
in-range bonds and a second structure whose only bond joins its two matched
atoms and carries at least one annotation (as every RCA4-bearing bond
does). -/
theorem missing_common_bond_raises (s1 : Structure) (s2atoms : List Atom)
    (s2props : Props) (a b c d bondOrder : Int) (bprops : Props)
    (hwf : ∀ bd ∈ s1.bonds, bd.a1 ≤ (s1.atoms.length : Int) ∧
      bd.a2 ≤ (s1.atoms.length : Int))
    (ha : 1 ≤ a ∧ a ≤ (s1.atoms.length : Int))
    (hb : 1 ≤ b ∧ b ≤ (s1.atoms.length : Int))
    (hc : 1 ≤ c ∧ c ≤ (s2atoms.length : Int))
    (hd : 1 ≤ d ∧ d ≤ (s2atoms.length : Int))
    (hcd : c ≠ d)
    (hnobond : ∀ bd ∈ s1.bonds, bondMatches bd a b = false)
    (hbp : bprops ≠ []) :
    mergeStructs s1 [a, b]
      { atoms := s2atoms, bonds := [⟨c, d, bondOrder, bprops⟩], props := s2props }
      [c, d] = Except.error Err.noBond := by
  have hbpfalse : bprops.isEmpty = false := by
    rcases bprops with _ | ⟨p, ps⟩
    · exact absurd rfl hbp
    · rfl
  set n : Int := (s1.atoms.length : Int) with hn
  set s2 : Structure :=
    { atoms := s2atoms, bonds := [⟨c, d, bondOrder, bprops⟩], props := s2props } with hs2
  have hmglen : (schMerge s1 s2).atoms.length = s1.atoms.length + s2atoms.length := by
    show (s1.atoms ++ s2atoms).length = _
    rw [List.length_append]
  have hvalid : ∀ x : Int, 1 ≤ x → x ≤ n + (s2atoms.length : Int) →
      (atomAt (schMerge s1 s2) x).isSome = true := by
    intro x h1 h2
    rw [atomAt_isSome_iff, hmglen]
    push_cast
    omega
  have hguard : (([c + n, d + n].all fun x => (atomAt (schMerge s1 s2) x).isSome) &&
      [a, b].all fun x => (atomAt (schMerge s1 s2) x).isSome) = true := by
    rw [Bool.and_eq_true, List.all_eq_true, List.all_eq_true]
    constructor
    · intro x hx
      simp only [List.mem_cons, List.not_mem_nil, or_false] at hx
      rcases hx with hx | hx
      · rw [hx]
        exact hvalid _ (by omega) (by omega)
      · rw [hx]
        exact hvalid _ (by omega) (by omega)
    · intro x hx
      simp only [List.mem_cons, List.not_mem_nil, or_false] at hx
      rcases hx with hx | hx
      · rw [hx]
        exact hvalid _ (by omega) (by omega)
      · rw [hx]
        exact hvalid _ (by omega) (by omega)
  have hbonds : (schMerge s1 s2).bonds =
      s1.bonds ++ [⟨c + n, d + n, bondOrder, bprops⟩] := rfl
  have hincnil : s1.bonds.filterMap (fun bd =>
      if bd.a1 == c + n then some (bd.a2, bd.order, bd.props)
      else if bd.a2 == c + n then some (bd.a1, bd.order, bd.props)
      else none) = [] := by
    refine List.filterMap_eq_nil.mpr ?_
    intro bd hbd
    have h1 : bd.a1 ≠ c + n := by
      have := (hwf bd hbd).1
      omega
    have h2 : bd.a2 ≠ c + n := by
      have := (hwf bd hbd).2
      omega
    rw [beq_eq_false_iff_ne.mpr h1, beq_eq_false_iff_ne.mpr h2]
    rfl
  have hfindnone : getBond ((schMerge s1 s2).bonds) a b = none := by
    rw [hbonds]
    unfold getBond
    rw [List.find?_append, List.find?_eq_none.mpr (fun bd hbd => by
      rw [hnobond bd hbd]
      exact Bool.false_ne_true), Option.none_or]
    rw [List.find?_eq_none]
    intro bd hbd
    simp only [List.mem_singleton] at hbd
    rw [hbd]
    show ¬bondMatches ⟨c + n, d + n, bondOrder, bprops⟩ a b = true
    unfold bondMatches
    have h1 : (c + n == a) = false := by
      refine beq_eq_false_iff_ne.mpr ?_
      omega
    have h2 : (c + n == b) = false := by
      refine beq_eq_false_iff_ne.mpr ?_
      omega
    rw [h1, h2]
    simp
  have hpb : processBond [a, b] [c + n, d + n] (c + n) ((schMerge s1 s2).bonds)
      (d + n) bondOrder bprops = Except.error Err.noBond := by
    unfold processBond
    rw [List.indexOf_cons_self]
    show (if (d + n) ∈ [c + n, d + n] then _ else _) = _
    rw [if_pos (by simp)]
    have hj2 : ([c + n, d + n] : List Int).indexOf (d + n) = 1 := by
      rw [List.indexOf_cons, beq_eq_false_iff_ne.mpr (by omega : c + n ≠ d + n),
        Bool.cond_false, List.indexOf_cons_self]
    rw [hj2]
    show (match getBond ((schMerge s1 s2).bonds) a b with
      | some _ => _
      | none => if bprops.isEmpty then _ else Except.error Err.noBond) = _
    rw [hfindnone, hbpfalse]
    rfl
  have hpp : processPair [a, b] [c + n, d + n] ((schMerge s1 s2).bonds) (c + n) =
      Except.error Err.noBond := by
    unfold processPair
    have hinc : ((schMerge s1 s2).bonds).filterMap (fun bd =>
        if bd.a1 == c + n then some (bd.a2, bd.order, bd.props)
        else if bd.a2 == c + n then some (bd.a1, bd.order, bd.props)
        else none) = [(d + n, bondOrder, bprops)] := by
      rw [hbonds, List.filterMap_append, hincnil]
      show ([] : List (Int × Int × Props)) ++ _ = _
      rw [List.nil_append, List.filterMap_cons]
      simp
    rw [hinc, foldlM_cons_except, hpb]
    rfl
  unfold mergeStructs
  dsimp only
  rw [show (List.map (fun x => x + n) [c, d] : List Int) = [c + n, d + n] from rfl]
  rw [if_pos hguard]
  rw [show (([a, b] : List Int).zip [c + n, d + n]) = [(a, c + n), (b, d + n)] from rfl]
  rw [foldlM_cons_except, hpp]
  rfl

/-- Witness for `missing_common_bond_raises`: a two-atom first structure
with no bond between its matched atoms, merged with a two-atom second
structure whose matched atoms are bonded, dies with the bond lookup
failure. -/
theorem missing_common_bond_raises_witness :
    mergeStructs sampA [1, 2] pairB [1, 2] = Except.error Err.noBond := by
  have h := missing_common_bond_raises sampA pairB.atoms pairB.props 1 2 1 2 1
    [("i_cs_rca4_1", Val.i 0)]
    (by intro bd hbd; cases hbd)
    (by constructor <;> decide) (by constructor <;> decide)
    (by constructor <;> decide) (by constructor <;> decide)
    (by decide)
    (by intro bd hbd; cases hbd)
    (by decide)
  exact h

end MergeSpec
